import Mathlib

/-!
Verification development for the `ib_world_model.py` world-model trainer.

The program builds a custom recurrent cell (`S_RNNCell`), prepares shuffled
train/validation data (`load_training_data`), trains over a geometrically
decaying learning-rate schedule, plots history curves
(`plot_training_history`) and persists or reuses the trained model
(`generate_world_model`).  Vectors are lists of scalars, matrices are lists
of rows; the activation is a parameter so that the embedding stays
computable, and theorems about the concrete program instantiate it with
`Real.tanh`, the activation the program uses.
-/

/-- A vector: one row of scalars. -/
abbrev Vec (R : Type) := List R

/-- A matrix in row-major form: a list of rows. -/
abbrev Mat (R : Type) := List (List R)

/-- Dot product of two vectors (entrywise product, then sum). -/
def dotP {R : Type} [Mul R] [AddCommMonoid R] (v w : Vec R) : R :=
  (List.zipWith (fun x y => x * y) v w).sum

/-- Column `j` of a row-major matrix. -/
def col {R : Type} [Zero R] (M : Mat R) (j : ℕ) : Vec R :=
  M.map (fun row => row.getD j 0)

/-- Number of columns of a row-major matrix (length of its first row). -/
def ncols {R : Type} (M : Mat R) : ℕ := (M.headD []).length

/-- Vector–matrix product `v · M` with the inner-dimension check that a
tensor matmul performs: defined only when `v` has as many entries as `M`
has rows. -/
def dotVM {R : Type} [Mul R] [AddCommMonoid R] (v : Vec R) (M : Mat R) : Option (Vec R) :=
  if v.length = M.length then
    some ((List.range (ncols M)).map (fun j => dotP v (col M j)))
  else none

/-- Elementwise vector addition, defined only on equal-length vectors. -/
def addV {R : Type} [Add R] (u v : Vec R) : Option (Vec R) :=
  if u.length = v.length then some (List.zipWith (fun x y => x + y) u v) else none

/-- `M` is a rectangular `m × n` matrix. -/
abbrev RectMat {R : Type} (M : Mat R) (m n : ℕ) : Prop :=
  M.length = m ∧ ∀ row ∈ M, row.length = n

/-- The recurrent cell of `ib_world_model.py`.  As in the source,
`state_size` is the pair `(units, state_size)` handed to the wrapping RNN
layer. -/
structure S_RNNCell where
  units : ℕ
  state_size : ℕ × ℕ
  self_input : Bool
  output_size : ℕ
  z_dim : ℕ
  a_dim : ℕ
deriving DecidableEq

/-- `S_RNNCell.__init__`: stores `units`, the state-size pair
`(units, state_size)`, `self_input`, `output_size = units`, `z_dim`,
`a_dim`. -/
def S_RNNCell.init (units state_size : ℕ) (self_input : Bool) (z_dim a_dim : ℕ) : S_RNNCell :=
  { units := units
    state_size := (units, state_size)
    self_input := self_input
    output_size := units
    z_dim := z_dim
    a_dim := a_dim }

/-- The five configuration fields `S_RNNCell.get_config` adds to the base
configuration. -/
structure CellConfig where
  units : ℕ
  state_size : ℕ
  self_input : Bool
  z_dim : ℕ
  a_dim : ℕ
deriving DecidableEq

/-- `S_RNNCell.get_config`: the five fields written into the configuration
dictionary (`state_size` is the second component of the stored pair). -/
def S_RNNCell.get_config (c : S_RNNCell) : CellConfig :=
  { units := c.units
    state_size := c.state_size.2
    self_input := c.self_input
    z_dim := c.z_dim
    a_dim := c.a_dim }

/-- Rebuilding a cell from a saved configuration, as the model loader does
by passing the saved fields back to `S_RNNCell.__init__`. -/
def S_RNNCell.from_config (cfg : CellConfig) : S_RNNCell :=
  S_RNNCell.init cfg.units cfg.state_size cfg.self_input cfg.z_dim cfg.a_dim

/-- Shapes of the six parameter tensors allocated by `S_RNNCell.build`. -/
structure WeightShapes where
  A : ℕ × ℕ
  B : ℕ × ℕ
  C : ℕ × ℕ
  D : ℕ × ℕ
  E : ℕ × ℕ
  bias : ℕ
deriving DecidableEq

/-- `S_RNNCell.build`: asserts the input shape is two-dimensional with
feature dimension `z_dim + a_dim`, then allocates the six weight tensors
with the shapes given in the source.  An assertion failure is `none`. -/
def S_RNNCell.build (c : S_RNNCell) (input_shape : List ℕ) : Option WeightShapes :=
  if input_shape.length = 2 ∧ input_shape.getD 1 0 = c.z_dim + c.a_dim then
    some { A := (c.state_size.2, c.state_size.2)
           B := (c.state_size.2, c.state_size.2)
           C := (c.z_dim + (if c.self_input then 1 else 0), c.state_size.2)
           D := (c.a_dim, c.state_size.2)
           E := (c.state_size.2, c.units)
           bias := c.state_size.2 }
  else none

/-- The six parameter tensors of a built cell. -/
structure CellWeights (R : Type) where
  A : Mat R
  B : Mat R
  C : Mat R
  D : Mat R
  E : Mat R
  bias : Vec R

/-- The weights have exactly the shapes `S_RNNCell.build` allocates. -/
abbrev S_RNNCell.WellFormed {R : Type} (c : S_RNNCell) (w : CellWeights R) : Prop :=
  RectMat w.A c.state_size.2 c.state_size.2 ∧
  RectMat w.B c.state_size.2 c.state_size.2 ∧
  RectMat w.C (c.z_dim + (if c.self_input then 1 else 0)) c.state_size.2 ∧
  RectMat w.D c.a_dim c.state_size.2 ∧
  RectMat w.E c.state_size.2 c.units ∧
  w.bias.length = c.state_size.2

/-- `S_RNNCell.call` on one batch row: split the input into the state part
`z` (first `z_dim` entries, extended by the previous output when
`self_input` is set) and the action part `a`; then
`s = act (si_prev·A + z·C)`, `si = act (s·B + a·D + bias)`, `y = si·E`,
returning `y` and the new state `(y, si)`.  Shape mismatches in the tensor
operations yield `none`. -/
def S_RNNCell.call {R : Type} [NonUnitalNonAssocSemiring R] (act : R → R) (c : S_RNNCell)
    (w : CellWeights R) (inputs : Vec R) (states : Vec R × Vec R) :
    Option (Vec R × (Vec R × Vec R)) := do
  let y_prev := states.1
  let si_prev := states.2
  let z0 := inputs.take c.z_dim
  let z := if c.self_input then z0 ++ y_prev else z0
  let a := inputs.drop c.z_dim
  let sa ← dotVM si_prev w.A
  let zc ← dotVM z w.C
  let s1 ← addV sa zc
  let s := s1.map act
  let sb ← dotVM s w.B
  let ad ← dotVM a w.D
  let t1 ← addV sb ad
  let t2 ← addV t1 w.bias
  let si := t2.map act
  let y ← dotVM si w.E
  return (y, (y, si))

/-- One raw time-series record: per-timestep latent states `z`, actions
`a`, targets `y` (each a list of feature vectors over the time axis). -/
structure Record (R : Type) where
  z : List (List R)
  a : List (List R)
  y : List (List R)

/-- Fancy-indexing `xs[idx]`: row `i` of the result is row `idx[i]` of
`xs`. -/
def applyPerm {α : Type} (idx : List ℕ) (xs : List α) (d : α) : List α :=
  idx.map (fun i => xs.getD i d)

/-- The split boundary `int(N * (1 - validation_split))` computed by
`load_training_data` (truncation of a non-negative value is floor). -/
def validation_split_i (N : ℕ) (f : ℚ) : ℕ :=
  (Int.floor ((N : ℚ) * (1 - f))).toNat

/-- `load_training_data`, after the external `generate_dataset` call has
produced `records`: inputs are the per-record feature-axis concatenation
of `z` and `a`, outputs are `y`; one index permutation `perm` (the
shuffled `arange`) is applied to both arrays, and both are split at
`validation_split_i`.  Returns
`((training_input, validation_input), (training_output, validation_output))`. -/
def load_training_data {R : Type} (records : List (Record R)) (perm : List ℕ)
    (validation_split : ℚ) :
    (List (List (List R)) × List (List (List R))) ×
      (List (List (List R)) × List (List (List R))) :=
  let training_input := records.map (fun r => List.zipWith (fun zr ar => zr ++ ar) r.z r.a)
  let training_output := records.map (fun r => r.y)
  let ti := applyPerm perm training_input []
  let tout := applyPerm perm training_output []
  let k := validation_split_i records.length validation_split
  ((ti.take k, ti.drop k), (tout.take k, tout.drop k))

/-- The learning-rate schedule of `generate_world_model`:
`map (fun exp => base_lr * 0.5 ** exp) (range steps)`. -/
def stage_lrs (base_lr : ℚ) (steps : ℕ) : List ℚ :=
  (List.range steps).map (fun e => base_lr * (1 / 2 : ℚ) ^ e)

/-- Configuration values read by `generate_world_model`.  The dtype field
shapes `(sequence length, feature dimension)` of `z`, `a`, `y` describe
the record layout produced by the dataset collaborator; `file_exists`
models `os.path.isfile(cfg['model_output_file'])`. -/
structure Cfg where
  file_exists : Bool
  seed : ℕ
  validation_split : ℚ
  state_dim : ℕ
  self_input : Bool
  z_field : ℕ × ℕ
  a_field : ℕ × ℕ
  y_field : ℕ × ℕ
  past_window : ℤ
  future_window : ℤ
  learning_rate : ℚ
  learning_rate_steps : ℕ
  batch_size : ℕ
  epochs : ℕ
  training_loss_file : String
  training_mae_file : String
deriving DecidableEq

/-- `plot_training_history` reduced to its externally visible effect: the
path the curve is written to.  The source selects the loss file only when
the title is the exact string `"loss"`. -/
def plot_training_history (cfg : Cfg) (title : String) : String :=
  if title = "loss" then cfg.training_loss_file else cfg.training_mae_file

/-- Observable effects of one `generate_world_model` run, in order. -/
inductive Event where
  | loadModel : Event
  | genDataset : Event
  | compile : ℚ → Event
  | fit : Event
  | plot : String → Event
  | evalModel : Event
  | saveModel : Event
deriving DecidableEq

/-- The effect trace of the training path of `generate_world_model`:
dataset generation, then per learning-rate stage a recompile and a fit,
then the two history plots (with the destinations `plot_training_history`
actually selects for the titles passed in the source), evaluation, and
serialization. -/
def trainingEvents (cfg : Cfg) : List Event :=
  [Event.genDataset] ++
    ((stage_lrs cfg.learning_rate cfg.learning_rate_steps).flatMap
      (fun lr => [Event.compile lr, Event.fit])) ++
    [Event.plot (plot_training_history cfg "train loss"),
     Event.plot (plot_training_history cfg "mean_absolute_error"),
     Event.evalModel, Event.saveModel]

/-- What `generate_world_model` returns: the model loaded from disk, or a
freshly trained one. -/
inductive MResult where
  | loaded : MResult
  | trained : MResult
deriving DecidableEq

/-- The assertions `generate_world_model` makes on the training path, in
source order: `validation_split` in `(0,1)`; positive `Z_DIM`, `A_DIM`,
`Y_DIM`; positive `past_window`; non-negative `future_window`; every dtype
field's sequence length equal to `past_window + future_window`. -/
abbrev assertsOk (cfg : Cfg) : Prop :=
  (0 < cfg.validation_split ∧ cfg.validation_split < 1) ∧
  0 < cfg.z_field.2 ∧ 0 < cfg.a_field.2 ∧ 0 < cfg.y_field.2 ∧
  0 < cfg.past_window ∧ 0 ≤ cfg.future_window ∧
  (cfg.z_field.1 : ℤ) = cfg.past_window + cfg.future_window ∧
  (cfg.a_field.1 : ℤ) = cfg.past_window + cfg.future_window ∧
  (cfg.y_field.1 : ℤ) = cfg.past_window + cfg.future_window

/-- `generate_world_model` as a state machine over its observable effects:
if a serialized model exists and no clean rebuild is requested, load and
return it; otherwise run the asserted training pipeline (an assertion
failure aborts the run, modelled as `none`). -/
def generate_world_model (cfg : Cfg) (clean strict_clean : Bool) :
    Option (MResult × List Event) :=
  if cfg.file_exists = true ∧ ¬(clean = true ∨ strict_clean = true) then
    some (MResult.loaded, [Event.loadModel])
  else if ¬(0 < cfg.validation_split ∧ cfg.validation_split < 1) then none
  else if ¬(0 < cfg.z_field.2) then none
  else if ¬(0 < cfg.a_field.2) then none
  else if ¬(0 < cfg.y_field.2) then none
  else if ¬(0 < cfg.past_window) then none
  else if ¬(0 ≤ cfg.future_window) then none
  else if ¬((cfg.z_field.1 : ℤ) = cfg.past_window + cfg.future_window ∧
            (cfg.a_field.1 : ℤ) = cfg.past_window + cfg.future_window ∧
            (cfg.y_field.1 : ℤ) = cfg.past_window + cfg.future_window) then none
  else some (MResult.trained, trainingEvents cfg)

/-- The learning rates of the compile events in a trace. -/
def compilesOf (evs : List Event) : List ℚ :=
  evs.filterMap (fun e => match e with
    | Event.compile lr => some lr
    | _ => none)

/-- Stage 1 of the transition, written entrywise as in the specification:
`s k = act (si_prev · A⟨col k⟩ + z · C⟨col k⟩)`. -/
def cellSpec_s {R : Type} [NonUnitalNonAssocSemiring R] (act : R → R) (w : CellWeights R)
    (si_prev z : Vec R) (st : ℕ) : Vec R :=
  (List.range st).map (fun k => act (dotP si_prev (col w.A k) + dotP z (col w.C k)))

/-- Stage 2 of the transition, written entrywise:
`si k = act (s · B⟨col k⟩ + a · D⟨col k⟩ + bias k)` — the bias appears only
here. -/
def cellSpec_si {R : Type} [NonUnitalNonAssocSemiring R] (act : R → R) (w : CellWeights R)
    (s a : Vec R) (st : ℕ) : Vec R :=
  (List.range st).map (fun k => act (dotP s (col w.B k) + dotP a (col w.D k) + w.bias.getD k 0))

/-- The output projection, written entrywise: `y k = si · E⟨col k⟩`, with no
nonlinearity. -/
def cellSpec_y {R : Type} [NonUnitalNonAssocSemiring R] (w : CellWeights R)
    (si : Vec R) (u : ℕ) : Vec R :=
  (List.range u).map (fun k => dotP si (col w.E k))

lemma dotVM_some {R : Type} [NonUnitalNonAssocSemiring R] {v : Vec R} {M : Mat R} {m n : ℕ}
    (hv : v.length = m) (hM : RectMat M m n) (hm : 0 < m) :
    dotVM v M = some ((List.range n).map (fun j => dotP v (col M j))) := by
  have hlen : v.length = M.length := by rw [hv, hM.1]
  have hn : ncols M = n := by
    cases M with
    | nil =>
      exfalso
      have h0 : (0 : ℕ) = m := hM.1
      omega
    | cons r t => exact hM.2 r (List.mem_cons_self r t)
  rw [dotVM, if_pos hlen, hn]

lemma addV_some {R : Type} [NonUnitalNonAssocSemiring R] {u v : Vec R}
    (h : u.length = v.length) :
    addV u v = some (List.zipWith (fun x y => x + y) u v) := by
  rw [addV, if_pos h]

lemma zipWith_map_same {α β γ : Type} (op : β → β → γ) (f g : α → β) (l : List α) :
    List.zipWith op (l.map f) (l.map g) = l.map (fun x => op (f x) (g x)) := by
  induction l with
  | nil => rfl
  | cons x t ih => simp [ih]

lemma range_map_getD {α : Type} (d : α) (l : List α) :
    (List.range l.length).map (fun k => l.getD k d) = l := by
  induction l with
  | nil => rfl
  | cons x t ih =>
    simp only [List.length_cons, List.range_succ_eq_map, List.map_cons, List.map_map,
      Function.comp_def, List.getD_cons_zero, List.getD_cons_succ]
    rw [ih]

lemma S_RNNCell.call_formula {R : Type} [NonUnitalNonAssocSemiring R] (act : R → R)
    (u st zd ad : ℕ) (b : Bool) (w : CellWeights R)
    (inputs y_prev si_prev : Vec R)
    (hw : (S_RNNCell.init u st b zd ad).WellFormed w)
    (hin : inputs.length = zd + ad)
    (hy : y_prev.length = u) (hs : si_prev.length = st)
    (hst : 0 < st) (hzd : 0 < zd) (had : 0 < ad)
    (hb : b = true → u = 1) :
    (S_RNNCell.init u st b zd ad).call act w inputs (y_prev, si_prev) =
      some (cellSpec_y w
              (cellSpec_si act w
                (cellSpec_s act w si_prev (inputs.take zd ++ (if b then y_prev else [])) st)
                (inputs.drop zd) st) u,
            (cellSpec_y w
              (cellSpec_si act w
                (cellSpec_s act w si_prev (inputs.take zd ++ (if b then y_prev else [])) st)
                (inputs.drop zd) st) u,
             cellSpec_si act w
               (cellSpec_s act w si_prev (inputs.take zd ++ (if b then y_prev else [])) st)
               (inputs.drop zd) st)) := by
  obtain ⟨hA, hB, hC, hD, hE, hbias⟩ := hw
  simp only [S_RNNCell.init] at hA hB hC hD hE hbias
  have htake : (inputs.take zd).length = zd := by
    rw [List.length_take, hin]; omega
  have hzlen : (inputs.take zd ++ (if b then y_prev else [])).length =
      zd + (if b then 1 else 0) := by
    cases b with
    | false => simp [htake]
    | true => simp [htake, hy, hb rfl]
  have hdrop : (inputs.drop zd).length = ad := by
    rw [List.length_drop, hin]; omega
  have e1 : dotVM si_prev w.A =
      some ((List.range st).map fun j => dotP si_prev (col w.A j)) :=
    dotVM_some hs hA hst
  have e2 : dotVM (inputs.take zd ++ (if b then y_prev else [])) w.C =
      some ((List.range st).map fun j =>
        dotP (inputs.take zd ++ (if b then y_prev else [])) (col w.C j)) :=
    dotVM_some hzlen hC (by cases b <;> simp <;> omega)
  have es : (List.zipWith (fun x y => x + y)
        ((List.range st).map fun j => dotP si_prev (col w.A j))
        ((List.range st).map fun j =>
          dotP (inputs.take zd ++ (if b then y_prev else [])) (col w.C j))).map act =
      cellSpec_s act w si_prev (inputs.take zd ++ (if b then y_prev else [])) st := by
    rw [zipWith_map_same, List.map_map]
    rfl
  have hslen : (cellSpec_s act w si_prev (inputs.take zd ++ (if b then y_prev else [])) st).length
      = st := by simp [cellSpec_s]
  have e5 : dotVM (cellSpec_s act w si_prev (inputs.take zd ++ (if b then y_prev else [])) st) w.B
      = some ((List.range st).map fun j =>
          dotP (cellSpec_s act w si_prev (inputs.take zd ++ (if b then y_prev else [])) st)
            (col w.B j)) :=
    dotVM_some hslen hB hst
  have e6 : dotVM (inputs.drop zd) w.D =
      some ((List.range st).map fun j => dotP (inputs.drop zd) (col w.D j)) :=
    dotVM_some hdrop hD had
  have esi : (List.zipWith (fun x y => x + y)
        (List.zipWith (fun x y => x + y)
          ((List.range st).map fun j =>
            dotP (cellSpec_s act w si_prev (inputs.take zd ++ (if b then y_prev else [])) st)
              (col w.B j))
          ((List.range st).map fun j => dotP (inputs.drop zd) (col w.D j)))
        w.bias).map act =
      cellSpec_si act w
        (cellSpec_s act w si_prev (inputs.take zd ++ (if b then y_prev else [])) st)
        (inputs.drop zd) st := by
    conv_lhs => rw [show w.bias = (List.range st).map (fun k => w.bias.getD k 0) by
      rw [← hbias, range_map_getD]]
    rw [zipWith_map_same, zipWith_map_same, List.map_map]
    rfl
  have hsilen : (cellSpec_si act w
      (cellSpec_s act w si_prev (inputs.take zd ++ (if b then y_prev else [])) st)
      (inputs.drop zd) st).length = st := by simp [cellSpec_si]
  have e9 : dotVM (cellSpec_si act w
        (cellSpec_s act w si_prev (inputs.take zd ++ (if b then y_prev else [])) st)
        (inputs.drop zd) st) w.E =
      some ((List.range u).map fun j =>
        dotP (cellSpec_si act w
          (cellSpec_s act w si_prev (inputs.take zd ++ (if b then y_prev else [])) st)
          (inputs.drop zd) st) (col w.E j)) :=
    dotVM_some hsilen hE hst
  have hzz : (if b = true then inputs.take zd ++ y_prev else inputs.take zd) =
      inputs.take zd ++ (if b = true then y_prev else []) := by
    cases b <;> simp
  unfold S_RNNCell.call
  dsimp only [S_RNNCell.init]
  rw [hzz, e1]
  simp only [Option.bind_eq_bind, Option.some_bind]
  rw [e2]
  simp only [Option.some_bind]
  rw [addV_some (by simp)]
  simp only [Option.some_bind]
  rw [es, e5]
  simp only [Option.some_bind]
  rw [e6]
  simp only [Option.some_bind]
  rw [addV_some (by simp)]
  simp only [Option.some_bind]
  rw [addV_some (by simp [hbias])]
  simp only [Option.some_bind]
  rw [esi, e9]
  simp only [Option.some_bind]
  rfl

/-- Example weights over ℝ for a 1/1/1/1 cell without self-input. -/
def exW : CellWeights ℝ :=
  { A := [[1]], B := [[1]], C := [[1]], D := [[1]], E := [[1]], bias := [1] }

/-- C1: for every built cell and every well-shaped input and state pair,
the call computes `z` as the first `z_dim` input components (extended by
`y_prev` when `self_input` is enabled), `a` as the remaining `a_dim`
components, `s = tanh(s_prev·A + z·C)`, `si = tanh(s·B + a·D + bias)` with
the bias only in the second stage, `y = si·E` with no nonlinearity, and
returns `y` together with `(y, si)` as the next state pair. -/
theorem C1_call_two_stage_transition (u st zd ad : ℕ) (b : Bool) (w : CellWeights ℝ)
    (inputs y_prev si_prev : Vec ℝ)
    (hw : (S_RNNCell.init u st b zd ad).WellFormed w)
    (hin : inputs.length = zd + ad)
    (hy : y_prev.length = u) (hs : si_prev.length = st)
    (hst : 0 < st) (hzd : 0 < zd) (had : 0 < ad)
    (hb : b = true → u = 1) :
    (S_RNNCell.init u st b zd ad).call Real.tanh w inputs (y_prev, si_prev) =
      some (cellSpec_y w
              (cellSpec_si Real.tanh w
                (cellSpec_s Real.tanh w si_prev (inputs.take zd ++ (if b then y_prev else [])) st)
                (inputs.drop zd) st) u,
            (cellSpec_y w
              (cellSpec_si Real.tanh w
                (cellSpec_s Real.tanh w si_prev (inputs.take zd ++ (if b then y_prev else [])) st)
                (inputs.drop zd) st) u,
             cellSpec_si Real.tanh w
               (cellSpec_s Real.tanh w si_prev (inputs.take zd ++ (if b then y_prev else [])) st)
               (inputs.drop zd) st)) :=
  S_RNNCell.call_formula Real.tanh u st zd ad b w inputs y_prev si_prev hw hin hy hs hst hzd had hb

/-- Witness for C1 at a concrete 1/1/1/1 cell. -/
theorem C1_call_two_stage_transition_witness :
    (S_RNNCell.init 1 1 false 1 1).call Real.tanh exW [1, 2] ([3], [4]) =
      some (cellSpec_y exW
              (cellSpec_si Real.tanh exW
                (cellSpec_s Real.tanh exW [4] ([(1:ℝ), 2].take 1 ++ (if false then [3] else [])) 1)
                ([(1:ℝ), 2].drop 1) 1) 1,
            (cellSpec_y exW
              (cellSpec_si Real.tanh exW
                (cellSpec_s Real.tanh exW [4] ([(1:ℝ), 2].take 1 ++ (if false then [3] else [])) 1)
                ([(1:ℝ), 2].drop 1) 1) 1,
             cellSpec_si Real.tanh exW
               (cellSpec_s Real.tanh exW [4] ([(1:ℝ), 2].take 1 ++ (if false then [3] else [])) 1)
               ([(1:ℝ), 2].drop 1) 1)) :=
  C1_call_two_stage_transition 1 1 1 1 false exW [1, 2] [3] [4]
    (by decide) (by decide) (by decide) (by decide)
    (by decide) (by decide) (by decide) (by decide)

/-- C2: building a cell with a rank-2 input shape whose feature dimension
is exactly `z_dim + a_dim` succeeds with the six exact weight shapes, and
any other feature dimension fails the assertion. -/
theorem C2_build_weight_shapes (u st zd ad batch : ℕ) (b : Bool)
    (hu : 0 < u) (hst : 0 < st) (hzd : 0 < zd) (had : 0 < ad) :
    (S_RNNCell.init u st b zd ad).build [batch, zd + ad] =
      some { A := (st, st), B := (st, st), C := (zd + (if b then 1 else 0), st),
             D := (ad, st), E := (st, u), bias := st } ∧
    ∀ d : ℕ, d ≠ zd + ad → (S_RNNCell.init u st b zd ad).build [batch, d] = none := by
  constructor
  · rw [S_RNNCell.build, if_pos ⟨rfl, rfl⟩]
    rfl
  · intro d hd
    rw [S_RNNCell.build, if_neg]
    intro h
    exact hd h.2

/-- Witness for C2 at a concrete cell. -/
theorem C2_build_weight_shapes_witness :
    (S_RNNCell.init 1 2 false 3 4).build [5, 3 + 4] =
      some { A := (2, 2), B := (2, 2), C := (3 + (if false then 1 else 0), 2),
             D := (4, 2), E := (2, 1), bias := 2 } ∧
    (S_RNNCell.init 1 2 false 3 4).build [5, 9] = none :=
  ⟨(C2_build_weight_shapes 1 2 3 4 5 false (by decide) (by decide) (by decide) (by decide)).1,
   (C2_build_weight_shapes 1 2 3 4 5 false (by decide) (by decide) (by decide) (by decide)).2
     9 (by decide)⟩

/-- C9: `get_config` exposes exactly the five construction fields, and a
cell reconstructed from that snapshot coincides with the original. -/
theorem C9_config_roundtrip (u st : ℕ) (b : Bool) (zd ad : ℕ) :
    (S_RNNCell.init u st b zd ad).get_config =
      { units := u, state_size := st, self_input := b, z_dim := zd, a_dim := ad } ∧
    S_RNNCell.from_config ((S_RNNCell.init u st b zd ad).get_config) =
      S_RNNCell.init u st b zd ad :=
  ⟨rfl, rfl⟩

/-- C10: with `self_input` enabled the extended state input has
`z_dim + units` entries while `C` has `z_dim + 1` rows, so for `units > 1`
the product `z · C` is ill-formed and the call fails. -/
theorem C10_self_input_needs_units_one (u st zd ad : ℕ) (w : CellWeights ℝ)
    (inputs y_prev si_prev : Vec ℝ)
    (hw : (S_RNNCell.init u st true zd ad).WellFormed w)
    (hin : inputs.length = zd + ad)
    (hy : y_prev.length = u) (hs : si_prev.length = st)
    (hu : 1 < u) :
    dotVM (inputs.take zd ++ y_prev) w.C = none ∧
    (S_RNNCell.init u st true zd ad).call Real.tanh w inputs (y_prev, si_prev) = none := by
  obtain ⟨hA, hB, hC, hD, hE, hbias⟩ := hw
  simp only [S_RNNCell.init, if_true] at hC
  have hzlen : (inputs.take zd ++ y_prev).length = zd + u := by
    rw [List.length_append, List.length_take, hin, hy]
    omega
  have hzC : dotVM (inputs.take zd ++ y_prev) w.C = none := by
    rw [dotVM, if_neg]
    rw [hzlen, hC.1]
    omega
  refine ⟨hzC, ?_⟩
  unfold S_RNNCell.call
  dsimp only [S_RNNCell.init]
  rw [if_pos rfl]
  cases h1 : dotVM si_prev w.A with
  | none => simp [Option.bind_eq_bind, h1]
  | some sa => simp [Option.bind_eq_bind, h1, hzC]

/-- Example weights with the shapes of a built `units = 2` cell with
self-input (so `C` has `z_dim + 1 = 2` rows but `z` has `z_dim + 2`
entries). -/
def w10 : CellWeights ℝ :=
  { A := [[1]], B := [[1]], C := [[1], [1]], D := [[1]], E := [[1, 1]], bias := [1] }

/-- Witness for C10 at a concrete `units = 2` cell. -/
theorem C10_self_input_needs_units_one_witness :
    dotVM ([(1:ℝ), 2].take 1 ++ [3, 4]) w10.C = none ∧
    (S_RNNCell.init 2 1 true 1 1).call Real.tanh w10 [1, 2] ([3, 4], [5]) = none :=
  C10_self_input_needs_units_one 2 1 1 1 w10 [1, 2] [3, 4] [5]
    (by decide) (by decide) (by decide) (by decide) (by decide)

/-- `tanh` vanishes only at zero (used for C8). -/
lemma tanh_eq_zero_iff (x : ℝ) : Real.tanh x = 0 ↔ x = 0 := by
  rw [Real.tanh_eq_sinh_div_cosh, div_eq_zero_iff]
  simp [Real.sinh_eq_zero, (Real.cosh_pos x).ne']

/-- All-zero weights with the shapes of a built 1/1/1/1 cell with
self-input. -/
def zeroW : CellWeights ℝ :=
  { A := [[0]], B := [[0]], C := [[0], [0]], D := [[0]], E := [[0]], bias := [0] }

/-- Weights for which the output genuinely depends on `y_prev`: the extra
row of `C` is 1 and the signal propagates through `B` and `E`. -/
def selW : CellWeights ℝ :=
  { A := [[0]], B := [[1]], C := [[0], [1]], D := [[0]], E := [[1]], bias := [0] }

/-- Counterexample to C8 as stated: with all-zero weights and self-input
enabled, the per-timestep output at the nonzero previous output `[1]` is
identical to the output at previous output `[0]` — the output does not
differ for every choice of weights. -/
theorem C8_zero_weights_counterexample :
    ([(1:ℝ)] ≠ ([0] : Vec ℝ)) ∧
    (S_RNNCell.init 1 1 true 1 1).call Real.tanh zeroW [5, 7] ([1], [0]) =
      (S_RNNCell.init 1 1 true 1 1).call Real.tanh zeroW [5, 7] ([0], [0]) := by
  constructor
  · simp
  · have h1 := S_RNNCell.call_formula Real.tanh 1 1 1 1 true zeroW [5, 7] [1] [0]
      (by decide) (by decide) (by decide) (by decide) (by decide) (by decide) (by decide)
      (fun _ => rfl)
    have h2 := S_RNNCell.call_formula Real.tanh 1 1 1 1 true zeroW [5, 7] [0] [0]
      (by decide) (by decide) (by decide) (by decide) (by decide) (by decide) (by decide)
      (fun _ => rfl)
    rw [h1, h2]
    norm_num [cellSpec_s, cellSpec_si, cellSpec_y, dotP, col, zeroW,
      List.range_succ, Real.tanh_zero]

/-- C8 amended: enabling `self_input` adds exactly one row to `C` (all
other weight shapes unchanged), and there exist weights — e.g. `selW` —
for which, with identical weights and input, the per-timestep output
differs whenever the previous output is nonzero.  (For other weights, e.g.
all zeros, the output is insensitive to `y_prev`.) -/
theorem C8_self_input_effect :
    (∀ u st zd ad batch : ℕ,
      (S_RNNCell.init u st true zd ad).build [batch, zd + ad] =
        some { A := (st, st), B := (st, st), C := (zd + 1, st),
               D := (ad, st), E := (st, u), bias := st } ∧
      (S_RNNCell.init u st false zd ad).build [batch, zd + ad] =
        some { A := (st, st), B := (st, st), C := (zd, st),
               D := (ad, st), E := (st, u), bias := st }) ∧
    (∀ y : ℝ, y ≠ 0 →
      (S_RNNCell.init 1 1 true 1 1).call Real.tanh selW [5, 7] ([y], [0]) ≠
      (S_RNNCell.init 1 1 true 1 1).call Real.tanh selW [5, 7] ([0], [0])) := by
  constructor
  · intro u st zd ad batch
    constructor
    · rw [S_RNNCell.build, if_pos ⟨rfl, rfl⟩]
      rfl
    · rw [S_RNNCell.build, if_pos ⟨rfl, rfl⟩]
      rfl
  · intro y hy
    have h1 := S_RNNCell.call_formula Real.tanh 1 1 1 1 true selW [5, 7] [y] [0]
      (by decide) (by decide) rfl (by decide) (by decide) (by decide) (by decide)
      (fun _ => rfl)
    have h2 := S_RNNCell.call_formula Real.tanh 1 1 1 1 true selW [5, 7] [0] [0]
      (by decide) (by decide) (by decide) (by decide) (by decide) (by decide) (by decide)
      (fun _ => rfl)
    rw [h1, h2]
    norm_num [cellSpec_s, cellSpec_si, cellSpec_y, dotP, col, selW,
      List.range_succ, Real.tanh_zero]
    rw [tanh_eq_zero_iff, tanh_eq_zero_iff]
    exact hy

/-- Witness for the amended C8 at `y_prev = [1]`. -/
theorem C8_self_input_effect_witness :
    ((1:ℝ) ≠ 0) ∧
    (S_RNNCell.init 1 1 true 1 1).call Real.tanh selW [5, 7] ([1], [0]) ≠
      (S_RNNCell.init 1 1 true 1 1).call Real.tanh selW [5, 7] ([0], [0]) :=
  ⟨one_ne_zero, C8_self_input_effect.2 1 one_ne_zero⟩

lemma applyPerm_getD {α : Type} (idx : List ℕ) (xs : List α) (d : α) (i : ℕ)
    (hi : i < idx.length) :
    (applyPerm idx xs d).getD i d = xs.getD (idx.getD i 0) d := by
  induction idx generalizing i with
  | nil => simp at hi
  | cons j t ih =>
    cases i with
    | zero => rfl
    | succ k => exact ih k (by simpa using hi)

lemma validation_split_i_le (N : ℕ) (f : ℚ) (hf : 0 ≤ f) :
    validation_split_i N f ≤ N := by
  rw [validation_split_i]
  have h1 : (N : ℚ) * (1 - f) ≤ (N : ℚ) := by
    nlinarith [Nat.cast_nonneg (α := ℚ) N]
  have h2 : Int.floor ((N : ℚ) * (1 - f)) ≤ (N : ℤ) := by
    have := Int.floor_le_floor h1
    rwa [Int.floor_natCast] at this
  omega

/-- C3: `load_training_data` applies one and the same index permutation to
the input and output arrays, splits both at `validation_split_i`, the
training partitions have exactly that many rows, the validation partitions
the remaining rows, the two partitions reassemble the shuffled arrays
(disjoint, order-preserving), and row `i` of both shuffled arrays comes
from the same original record index `perm[i]`. -/
theorem C3_shuffle_then_split {R : Type} (records : List (Record R)) (perm : List ℕ) (f : ℚ)
    (hperm : perm.Perm (List.range records.length))
    (hf0 : 0 < f) (hf1 : f < 1) :
    (load_training_data records perm f).1.1.length =
        validation_split_i records.length f ∧
    (load_training_data records perm f).2.1.length =
        validation_split_i records.length f ∧
    (load_training_data records perm f).1.2.length =
        records.length - validation_split_i records.length f ∧
    (load_training_data records perm f).2.2.length =
        records.length - validation_split_i records.length f ∧
    (load_training_data records perm f).1.1 ++ (load_training_data records perm f).1.2 =
        applyPerm perm (records.map (fun r => List.zipWith (fun zr ar => zr ++ ar) r.z r.a)) [] ∧
    (load_training_data records perm f).2.1 ++ (load_training_data records perm f).2.2 =
        applyPerm perm (records.map (fun r => r.y)) [] ∧
    ∀ i, i < records.length →
      (applyPerm perm (records.map (fun r => List.zipWith (fun zr ar => zr ++ ar) r.z r.a)) []).getD i []
          = (records.map (fun r => List.zipWith (fun zr ar => zr ++ ar) r.z r.a)).getD (perm.getD i 0) [] ∧
        (applyPerm perm (records.map (fun r => r.y)) []).getD i []
          = (records.map (fun r => r.y)).getD (perm.getD i 0) [] := by
  have hlenperm : perm.length = records.length := by
    simpa using hperm.length_eq
  have hk : validation_split_i records.length f ≤ records.length :=
    validation_split_i_le records.length f hf0.le
  have hshin : (applyPerm perm (records.map (fun r => List.zipWith (fun zr ar => zr ++ ar) r.z r.a)) []).length
      = records.length := by
    simp [applyPerm, hlenperm]
  have hshout : (applyPerm perm (records.map (fun r => r.y)) []).length = records.length := by
    simp [applyPerm, hlenperm]
  refine ⟨?_, ?_, ?_, ?_, ?_, ?_, ?_⟩
  · simp only [load_training_data, List.length_take]
    rw [hshin]
    omega
  · simp only [load_training_data, List.length_take]
    rw [hshout]
    omega
  · simp only [load_training_data, List.length_drop]
    rw [hshin]
  · simp only [load_training_data, List.length_drop]
    rw [hshout]
  · simp only [load_training_data]
    exact List.take_append_drop _ _
  · simp only [load_training_data]
    exact List.take_append_drop _ _
  · intro i hi
    constructor
    · exact applyPerm_getD perm _ [] i (by rw [hlenperm]; exact hi)
    · exact applyPerm_getD perm _ [] i (by rw [hlenperm]; exact hi)

/-- Concrete three-record dataset over ℚ for the C3 witness. -/
def recs3 : List (Record ℚ) :=
  [{ z := [[1]], a := [[2]], y := [[3]] },
   { z := [[4]], a := [[5]], y := [[6]] },
   { z := [[7]], a := [[8]], y := [[9]] }]

/-- Witness for C3: three records, permutation `[2,0,1]`, split `1/2`; the
training input partition has `⌊3·(1/2)⌋ = 1` row. -/
theorem C3_shuffle_then_split_witness :
    (load_training_data recs3 [2, 0, 1] (1/2 : ℚ)).1.1.length = 1 := by
  have h := (C3_shuffle_then_split recs3 [2, 0, 1] (1/2 : ℚ)
    (by decide) (by norm_num) (by norm_num)).1
  rw [h]
  norm_num [validation_split_i, recs3]

lemma compilesOf_append (a b : List Event) :
    compilesOf (a ++ b) = compilesOf a ++ compilesOf b :=
  List.filterMap_append a b _

lemma compilesOf_stage_block (lrs : List ℚ) :
    compilesOf (lrs.flatMap (fun lr => [Event.compile lr, Event.fit])) = lrs := by
  induction lrs with
  | nil => rfl
  | cons x t ih =>
    simp only [List.flatMap_cons, compilesOf_append, ih]
    rfl

lemma stage_lrs_getD (base_lr : ℚ) (steps i : ℕ) (hi : i < steps) :
    (stage_lrs base_lr steps).getD i 0 = base_lr * (1 / 2 : ℚ) ^ i := by
  rw [stage_lrs]
  have hlen : i < (List.map (fun e => base_lr * (1 / 2 : ℚ) ^ e) (List.range steps)).length := by
    simpa using hi
  rw [List.getD_eq_getElem _ _ hlen, List.getElem_map, List.getElem_range]

/-- A throwaway configuration used to instantiate universally quantified
pipeline statements in witnesses. -/
def cfgEx : Cfg :=
  { file_exists := true, seed := 0, validation_split := 1/5, state_dim := 4,
    self_input := false, z_field := (3, 2), a_field := (3, 1), y_field := (3, 2),
    past_window := 3, future_window := 0, learning_rate := 1/100,
    learning_rate_steps := 3, batch_size := 10, epochs := 1,
    training_loss_file := "loss.png", training_mae_file := "mae.png" }

/-- C4: the training orchestrator compiles once per stage, in stage order,
and the learning rate of stage `i` is `base_lr * 0.5 ^ i`; the schedule has
exactly `steps` entries, and for `base_lr = 0.01`, `steps = 3` the stage
rates are exactly `[0.01, 0.005, 0.0025]`. -/
theorem C4_learning_rate_schedule (cfg : Cfg) (base_lr : ℚ) (steps : ℕ) :
    compilesOf (trainingEvents cfg) = stage_lrs cfg.learning_rate cfg.learning_rate_steps ∧
    (stage_lrs base_lr steps).length = steps ∧
    (∀ i, i < steps → (stage_lrs base_lr steps).getD i 0 = base_lr * (1 / 2 : ℚ) ^ i) ∧
    stage_lrs (0.01 : ℚ) 3 = [0.01, 0.005, 0.0025] := by
  refine ⟨?_, ?_, ?_, ?_⟩
  · rw [trainingEvents, compilesOf_append, compilesOf_append, compilesOf_stage_block]
    simp [compilesOf]
  · simp [stage_lrs]
  · intro i hi
    exact stage_lrs_getD base_lr steps i hi
  · norm_num [stage_lrs, List.range_succ]

/-- Witness for C4 at stage `i = 1` of a three-stage schedule. -/
theorem C4_learning_rate_schedule_witness :
    (1 < 3) ∧ (stage_lrs (1/100 : ℚ) 3).getD 1 0 = (1/100 : ℚ) * (1 / 2 : ℚ) ^ 1 :=
  ⟨by decide, (C4_learning_rate_schedule cfgEx (1/100) 3).2.2.1 1 (by decide)⟩

/-- C5: with an existing artifact and no clean flag the pipeline returns
the loaded model having done nothing else; otherwise (and with the
assertions satisfied) the full prepare–train–serialize pipeline runs. -/
theorem C5_reuse_or_full_pipeline (cfg : Cfg) (clean strict_clean : Bool) :
    (cfg.file_exists = true → clean = false → strict_clean = false →
      generate_world_model cfg clean strict_clean = some (MResult.loaded, [Event.loadModel])) ∧
    ((cfg.file_exists = false ∨ clean = true ∨ strict_clean = true) → assertsOk cfg →
      generate_world_model cfg clean strict_clean = some (MResult.trained, trainingEvents cfg) ∧
      Event.genDataset ∈ trainingEvents cfg ∧ Event.evalModel ∈ trainingEvents cfg ∧
      Event.saveModel ∈ trainingEvents cfg ∧
      (0 < cfg.learning_rate_steps → Event.fit ∈ trainingEvents cfg)) := by
  constructor
  · intro h1 h2 h3
    have hcond : cfg.file_exists = true ∧ ¬(clean = true ∨ strict_clean = true) :=
      ⟨h1, by simp [h2, h3]⟩
    rw [generate_world_model, if_pos hcond]
  · intro hno hok
    obtain ⟨h01, hz, ha, hy, hp, hf, hzl, hal, hyl⟩ := hok
    have hcond : ¬(cfg.file_exists = true ∧ ¬(clean = true ∨ strict_clean = true)) := by
      rcases hno with h | h | h
      · intro hc
        rw [h] at hc
        exact absurd hc.1 (by simp)
      · intro hc
        exact hc.2 (Or.inl h)
      · intro hc
        exact hc.2 (Or.inr h)
    have hgen : generate_world_model cfg clean strict_clean =
        some (MResult.trained, trainingEvents cfg) := by
      rw [generate_world_model, if_neg hcond, if_neg (not_not_intro h01),
        if_neg (not_not_intro hz), if_neg (not_not_intro ha), if_neg (not_not_intro hy),
        if_neg (not_not_intro hp), if_neg (not_not_intro hf),
        if_neg (not_not_intro ⟨hzl, hal, hyl⟩)]
    refine ⟨hgen, ?_, ?_, ?_, ?_⟩
    · simp [trainingEvents]
    · simp [trainingEvents]
    · simp [trainingEvents]
    · intro hsteps
      have hmem : Event.fit ∈ (stage_lrs cfg.learning_rate cfg.learning_rate_steps).flatMap
          (fun lr => [Event.compile lr, Event.fit]) := by
        refine List.mem_flatMap.mpr ⟨cfg.learning_rate * (1 / 2 : ℚ) ^ 0, ?_, by simp⟩
        rw [stage_lrs]
        exact List.mem_map.mpr ⟨0, List.mem_range.mpr hsteps, rfl⟩
      simp [trainingEvents, hmem]

/-- A configuration whose artifact is absent and whose assertions all
hold. -/
def cfgTrain : Cfg :=
  { file_exists := false, seed := 0, validation_split := 1/5, state_dim := 4,
    self_input := false, z_field := (3, 2), a_field := (3, 1), y_field := (3, 2),
    past_window := 3, future_window := 0, learning_rate := 1/100,
    learning_rate_steps := 3, batch_size := 10, epochs := 1,
    training_loss_file := "loss.png", training_mae_file := "mae.png" }

/-- Witness for C5: both branches at concrete configurations. -/
theorem C5_reuse_or_full_pipeline_witness :
    generate_world_model cfgEx false false = some (MResult.loaded, [Event.loadModel]) ∧
    generate_world_model cfgTrain false false =
      some (MResult.trained, trainingEvents cfgTrain) :=
  ⟨(C5_reuse_or_full_pipeline cfgEx false false).1 rfl rfl rfl,
   ((C5_reuse_or_full_pipeline cfgTrain false false).2 (Or.inl rfl)
     (by norm_num [cfgTrain, assertsOk])).1⟩

/-- C7: on the training path (no artifact reused), the run aborts via a
failed assertion exactly when one of the configuration/shape preconditions
is violated; when all of them hold, no assertion fires. -/
theorem C7_shape_assertions_gate (cfg : Cfg) (clean strict_clean : Bool)
    (h : cfg.file_exists = false ∨ clean = true ∨ strict_clean = true) :
    (generate_world_model cfg clean strict_clean = none ↔ ¬ assertsOk cfg) := by
  have hcond : ¬(cfg.file_exists = true ∧ ¬(clean = true ∨ strict_clean = true)) := by
    rcases h with h | h | h
    · intro hc
      rw [h] at hc
      exact absurd hc.1 (by simp)
    · intro hc
      exact hc.2 (Or.inl h)
    · intro hc
      exact hc.2 (Or.inr h)
  rw [generate_world_model, if_neg hcond]
  split_ifs with h1 h2 h3 h4 h5 h6 h7 <;> simp [assertsOk] <;> tauto

/-- A configuration with `validation_split = 2`, outside `(0,1)`. -/
def cfgBad : Cfg :=
  { file_exists := false, seed := 0, validation_split := 2, state_dim := 4,
    self_input := false, z_field := (3, 2), a_field := (3, 1), y_field := (3, 2),
    past_window := 3, future_window := 0, learning_rate := 1/100,
    learning_rate_steps := 3, batch_size := 10, epochs := 1,
    training_loss_file := "loss.png", training_mae_file := "mae.png" }

/-- Witness for C7: an out-of-range `validation_split` aborts the run. -/
theorem C7_shape_assertions_gate_witness :
    generate_world_model cfgBad false false = none :=
  (C7_shape_assertions_gate cfgBad false false (Or.inl rfl)).mpr
    (fun hok => absurd hok.1.2 (by norm_num [cfgBad]))

/-- C6 (code bug): on a full training run with distinct configured plot
files, the loss curve is passed with title `"train loss"`, which does not
match the `"loss"` check in `plot_training_history`, so the loss curve is
written to the mean-absolute-error file and the configured loss file is
never written; the metric curve also goes to the mean-absolute-error
file. -/
theorem C6_loss_plot_misrouted :
    cfgTrain.training_loss_file = "loss.png" ∧
    cfgTrain.training_mae_file = "mae.png" ∧
    plot_training_history cfgTrain "train loss" = "mae.png" ∧
    plot_training_history cfgTrain "mean_absolute_error" = "mae.png" ∧
    generate_world_model cfgTrain false false =
      some (MResult.trained, trainingEvents cfgTrain) ∧
    Event.plot "mae.png" ∈ trainingEvents cfgTrain ∧
    Event.plot "loss.png" ∉ trainingEvents cfgTrain := by
  refine ⟨rfl, rfl, ?_, ?_, ?_, ?_, ?_⟩
  · rw [plot_training_history, if_neg (by decide)]
    rfl
  · rw [plot_training_history, if_neg (by decide)]
    rfl
  · have hok : assertsOk cfgTrain := by norm_num [cfgTrain, assertsOk]
    obtain ⟨h01, hz, ha, hy, hp, hf, hzl, hal, hyl⟩ := hok
    rw [generate_world_model, if_neg (by simp [cfgTrain]), if_neg (not_not_intro h01),
      if_neg (not_not_intro hz), if_neg (not_not_intro ha), if_neg (not_not_intro hy),
      if_neg (not_not_intro hp), if_neg (not_not_intro hf),
      if_neg (not_not_intro ⟨hzl, hal, hyl⟩)]
  · simp [trainingEvents, plot_training_history, cfgTrain]
  · simp [trainingEvents, plot_training_history, cfgTrain, stage_lrs, List.mem_flatMap]
